import Mathlib

/-!
Verification of `logview.py` (display parts of GitHub Action log zip files).

This file is a shallow embedding of the program's data model and operations:

* Python strings are `List Char` (`Str`); Python's substring test `needle in
  hay`, `str.lower`, `str.splitlines`, `str.replace`, `format(n, " 3d")` and
  `format(v, "05d")` are modelled by executable Lean functions.
* A zip archive is the list of its entries `(filename, decoded text)`;
  `ZipFile.read` is modelled as lookup of the last entry with the given name
  (mirroring `zipfile`'s name-to-info map, where later entries win).
* Python exceptions are modelled with `Except PyError`; `print` output is
  modelled by returning the list of printed lines.  When an exception is
  raised after some lines were already printed, the model reports only the
  exception — the theorems below never depend on output printed before an
  abort.
* `sorted(xs, key=f)` (a stable sort by `f` under lexicographic string
  comparison) is modelled with `List.insertionSort`, which is extensionally
  equal to any stable sort for a total preorder comparator.
* `tomllib.loads` of the built-in default configuration is transcribed as
  the concrete table it produces (`default_config_table`).

Definitions are translated from `src/logview.py`; doc comments cite the
source lines.  The file is laid out with the definitions first and all
theorems after them.
-/

namespace Logview

/-- Python strings, modelled as their list of characters. -/
abbrev Str := List Char

/-- Python's substring test `needle in hay`. -/
def containsSub (hay needle : Str) : Bool :=
  needle.isPrefixOf hay ||
    match hay with
    | [] => false
    | _ :: t => containsSub t needle

/-- Python `str.lower`, for the ASCII range (the configuration strings of the
program are ASCII). -/
def pyLower (s : Str) : Str := s.map Char.toLower

/-- Python's `<` on strings: lexicographic comparison by code point. -/
def strLt : Str → Str → Bool
  | [], [] => false
  | [], _ :: _ => true
  | _ :: _, [] => false
  | a :: as, b :: bs => if a = b then strLt as bs else decide (a < b)

/-- Python's `<=` on strings: lexicographic comparison by code point. -/
def strLe : Str → Str → Bool
  | [], _ => true
  | _ :: _, [] => false
  | a :: as, b :: bs => if a = b then strLe as bs else decide (a < b)

/-- Split a string at every occurrence of a separator character. -/
def splitOnChar (sep : Char) : Str → List Str
  | [] => [[]]
  | c :: rest =>
    let r := splitOnChar sep rest
    if c = sep then [] :: r
    else
      match r with
      | [] => [[c]]
      | h :: t => (c :: h) :: t

/-- The line-boundary characters of Python `str.splitlines`. -/
def lineBreakChars : List Char :=
  ['\n', '\r', '\x0b', '\x0c', '\x1c', '\x1d', '\x1e', '\x85', '\u2028', '\u2029']

/-- Worker for `splitlines`: `cur` is the reversed current line. -/
def splitlinesGo : Str → Str → List Str
  | cur, [] => [cur.reverse]
  | cur, '\r' :: '\n' :: rest =>
    cur.reverse :: (if rest = [] then [] else splitlinesGo [] rest)
  | cur, c :: rest =>
    if c ∈ lineBreakChars then
      cur.reverse :: (if rest = [] then [] else splitlinesGo [] rest)
    else splitlinesGo (c :: cur) rest

/-- Python `str.splitlines` (no trailing empty line after a final
terminator; the empty string yields no lines). -/
def splitlines (s : Str) : List Str :=
  if s = [] then [] else splitlinesGo [] s

/-- Worker for `pyReplace` with a nonempty pattern `o :: os`.  The `fuel`
argument only makes the recursion structural; `fuel = length of the string`
is always enough because each step consumes at least one character. -/
def pyReplaceGo (o : Char) (os new : Str) : Nat → Str → Str
  | _, [] => []
  | 0, s => s
  | fuel + 1, c :: rest =>
    if (o :: os).isPrefixOf (c :: rest) then
      new ++ pyReplaceGo o os new fuel (rest.drop os.length)
    else c :: pyReplaceGo o os new fuel rest

/-- Python `s.replace(old, new)`: replace every non-overlapping occurrence,
left to right.  (With `old = ""` Python inserts `new` at every gap.) -/
def pyReplace (s old new : Str) : Str :=
  match old with
  | [] => new ++ s.flatMap fun c => c :: new
  | o :: os => pyReplaceGo o os new s.length s

/-- Python `int(...)` on a string of decimal digits. -/
def digitsToNat (ds : Str) : Nat :=
  ds.foldl (fun acc c => 10 * acc + (c.toNat - '0'.toNat)) 0

/-- Python `format(v, "05d")` for a nonnegative value: decimal digits,
zero-padded on the left to width 5. -/
def format05 (v : Nat) : Str :=
  let s := (toString v).data
  List.replicate (5 - s.length) '0' ++ s

/-- Python `format(num, " 3d")`: a space sign for nonnegative numbers,
then padded on the left with spaces to width 3. -/
def fmtNum3 (n : Nat) : Str :=
  let t := ' ' :: (toString n).data
  List.replicate (3 - t.length) ' ' ++ t

/-! ### `name_key_function` (logview.py lines 173-196) -/

/-- The time tag length (logview.py line 173): `TIMETAG_SIZE = 28`. -/
def TIMETAG_SIZE : Nat := 28

/-- First match of the regex `/([0-9]+)[^0-9]*`: the maximal digit run
immediately after the leftmost `/` that is followed by a digit. -/
def slashDigits : Str → Option Str
  | [] => none
  | '/' :: rest =>
    let d := rest.takeWhile Char.isDigit
    if d = [] then slashDigits rest else some d
  | _ :: rest => slashDigits rest

/-- `name_key_function` (logview.py lines 176-196): replace a run of digits
at the start of the filename (regex `^([0-9]+)[^0-9]*`) by its value padded
with leading zeros to 5 characters, then do the same for the first digit run
immediately after a slash.  Note `str.replace` replaces every occurrence of
the digit substring, exactly as the source does. -/
def name_key_function (name : Str) : Str :=
  let name1 :=
    let d := name.takeWhile Char.isDigit
    if d = [] then name
    else pyReplace name d (format05 (digitsToNat d))
  match slashDigits name1 with
  | none => name1
  | some d2 => pyReplace name1 d2 (format05 (digitsToNat d2))

/-- The comparison used by `sorted(filenames, key=name_key_function)`
(logview.py line 205). -/
def nameKeyLe (a b : Str) : Prop :=
  strLe (name_key_function a) (name_key_function b) = true

instance : DecidableRel nameKeyLe := fun _ _ => instDecidableEqBool _ _

/-- Python `sorted(filenames, key=name_key_function)` (logview.py line 205):
a stable sort by the key under lexicographic string comparison.  For a total
preorder comparator every stable sort computes the same list, so insertion
sort is extensionally the same function as Python's sort. -/
def pySortedByNameKey (l : List Str) : List Str :=
  List.insertionSort nameKeyLe l

/-- `x` occurs at a strictly earlier position than `y` in `l`. -/
def precedesIn (x y : Str) (l : List Str) : Prop :=
  ∃ i j : Fin l.length, i < j ∧ l.get i = x ∧ l.get j = y

instance (x y : Str) (l : List Str) : Decidable (precedesIn x y l) := by
  unfold precedesIn; infer_instance

/-! ### Paths and fnmatch -/

/-- Components of `pathlib.Path(s).parts` (POSIX): split on `/`, drop empty
and `.` components, and prepend a root part for absolute paths (`//` exactly
for a double leading slash, else `/`). -/
def pathParts (s : Str) : List Str :=
  let comps := (splitOnChar '/' s).filter fun c => !c.isEmpty && !(c == ['.'])
  let lead := (s.takeWhile fun c => c == '/').length
  if lead = 0 then comps
  else if lead = 2 then ['/', '/'] :: comps
  else ['/'] :: comps

/-- Python `"/".join(parts)` (logview.py line 232). -/
def joinParts (parts : List Str) : Str :=
  List.intercalate ['/'] parts

/-- Membership of a character in an fnmatch bracket expression (the text
between `[` and `]`): `a-b` is a code-point range, other characters are
literal, a trailing or leading `-` is literal. -/
def bracketHas : Str → Char → Bool
  | [], _ => false
  | a :: '-' :: b :: rest, c =>
    (decide (a ≤ c) && decide (c ≤ b)) || bracketHas rest c
  | a :: rest, c => decide (a = c) || bracketHas rest c

/-- Split a bracket body at the first `]`, returning the text before it and
the remainder after it; `none` when no `]` closes the bracket. -/
def splitAtClose : Str → Option (Str × Str)
  | [] => none
  | ']' :: rest => some ([], rest)
  | c :: rest => (splitAtClose rest).map fun pr => (c :: pr.1, pr.2)

/-- Parse the remainder after `[` in an fnmatch pattern: an optional leading
`!` negates, a `]` in first position is literal, and the body runs to the
next `]`.  Returns `none` (the `[` is then literal) when unclosed. -/
def parseBracket (p : Str) : Option (Bool × Str × Str) :=
  match p with
  | '!' :: q =>
    match q with
    | ']' :: q2 => (splitAtClose q2).map fun pr => (true, ']' :: pr.1, pr.2)
    | _ => (splitAtClose q).map fun pr => (true, pr.1, pr.2)
  | ']' :: q2 => (splitAtClose q2).map fun pr => (false, ']' :: pr.1, pr.2)
  | _ => (splitAtClose p).map fun pr => (false, pr.1, pr.2)

/-- Worker for `fnmatch`: `*` matches any sequence, `?` any character,
`[...]` a bracket expression, anything else itself.  The fuel argument makes
the recursion structural; every call consumes at least one unit of
`pattern.length + name.length`, so the wrapper's fuel always suffices. -/
def fnGo : Nat → Str → Str → Bool
  | 0, p, s => p.isEmpty && s.isEmpty
  | _ + 1, [], s => s.isEmpty
  | fuel + 1, '*' :: p, s =>
    fnGo fuel p s ||
      (match s with
       | [] => false
       | _ :: t => fnGo fuel ('*' :: p) t)
  | fuel + 1, '?' :: p, s =>
    (match s with
     | [] => false
     | _ :: t => fnGo fuel p t)
  | fuel + 1, '[' :: p, s =>
    (match parseBracket p with
     | some (neg, stuff, rest) =>
       (match s with
        | [] => false
        | c :: t => (bracketHas stuff c != neg) && fnGo fuel rest t)
     | none =>
       (match s with
        | [] => false
        | c :: t => decide ('[' = c) && fnGo fuel p t))
  | fuel + 1, a :: p, s =>
    (match s with
     | [] => false
     | c :: t => decide (a = c) && fnGo fuel p t)

/-- Python `fnmatch.fnmatch(name, pattern)` on POSIX (where `normcase` is the
identity, so this is also `fnmatchcase`). -/
def fnmatch (name pattern : Str) : Bool :=
  fnGo (pattern.length + name.length + 1) pattern name

/-! ### MemberFilter (logview.py lines 199-233) and the archive model -/

/-- A zip archive: the entries of `ZipFile.infolist()` as
`(filename, decoded text)` pairs. -/
structure ZipArchive where
  entries : List (Str × Str)
deriving DecidableEq

/-- `ZipFile.read(name).decode("utf-8")`: zipfile resolves a name through a
name-to-info map in which a later entry with the same name wins, hence the
reversed lookup.  (A lookup of a missing name raises `KeyError` in Python;
the model returns `""` there, and every theorem that depends on reads only
uses names present in the archive.) -/
def ZipArchive.read (z : ZipArchive) (name : Str) : Str :=
  (List.lookup name z.entries.reverse).getD []

/-- The member filenames (logview.py line 204): directory entries — names
ending in `/`, per `ZipInfo.is_dir` — are dropped. -/
def memberNames (z : ZipArchive) : List Str :=
  (z.entries.map Prod.fst).filter fun n => !(decide (n.getLast? = some '/'))

/-- `MemberFilter.ordered_filenames` (logview.py line 205). -/
def orderedFilenames (z : ZipArchive) : List Str :=
  pySortedByNameKey (memberNames z)

/-- `MemberFilter._parts` (logview.py line 206). -/
def memberParts (z : ZipArchive) : List (List Str) :=
  (orderedFilenames z).map pathParts

/-- `MemberFilter.timestamp` (logview.py lines 209-210): the first
`TIMETAG_SIZE` characters of the first ordered member's text.  On an archive
with no (non-directory) member the source raises `IndexError`; the model
returns `""` there and theorems about the timestamp assume a nonempty
archive. -/
def ZipArchive.timestamp (z : ZipArchive) : Str :=
  match orderedFilenames z with
  | [] => []
  | f :: _ => (z.read f).take TIMETAG_SIZE

/-- `MemberFilter.select` (logview.py lines 212-233): for each pattern, every
member whose `Path(...).parts` has the same number of parts as the pattern's
and matches it part by part under `fnmatch` contributes the `/`-join of its
parts to the result. -/
def select (z : ZipArchive) (patterns : List Str) : List Str :=
  patterns.flatMap fun pattern =>
    (memberParts z).filterMap fun filename_parts =>
      if filename_parts.length = (pathParts pattern).length ∧
          (filename_parts.zip (pathParts pattern)).all (fun q => fnmatch q.1 q.2) = true then
        some (joinParts filename_parts)
      else none

/-- The separator of the repository regex `^.*  repository: (.*)$`
(logview.py line 245). -/
def repoSep : Str := "  repository: ".data

/-- The regex match `^.*  repository: (.*)$` on one line: `.*` is greedy, so
the captured group is everything after the last occurrence of the
separator. -/
def repoCapture (line : Str) : Option Str :=
  (((List.range (line.length + 1)).filter fun i =>
      repoSep.isPrefixOf (line.drop i)).getLast?).map
    fun i => line.drop (i + repoSep.length)

/-- `identify_repository` (logview.py lines 236-248): the first captured
repository line over the members selected by `*.txt`, in order. -/
def identify_repository (z : ZipArchive) : Option Str :=
  (select z ["*.txt".data]).findSome? fun member =>
    (splitlines (z.read member)).findSome? repoCapture

/-! ### Colors, highlighting, configuration (logview.py lines 45-170) -/

/-- The `ColorName` enum (logview.py lines 45-64). -/
inductive ColorName
  | NONE
  | BLACK
  | BLUE
  | CYAN
  | GREEN
  | LIGHTBLACK_EX
  | LIGHTBLUE_EX
  | LIGHTCYAN_EX
  | LIGHTGREEN_EX
  | LIGHTMAGENTA_EX
  | LIGHTRED_EX
  | LIGHTWHITE_EX
  | LIGHTYELLOW_EX
  | RED
  | RESET
  | WHITE
  | YELLOW
deriving DecidableEq

/-- The enum values: the ANSI sequences `colorama.Fore` defines for each
name (`NONE` is the empty string, per logview.py line 48). -/
def ColorName.value : ColorName → Str
  | .NONE => []
  | .BLACK => "\x1b[30m".data
  | .BLUE => "\x1b[34m".data
  | .CYAN => "\x1b[36m".data
  | .GREEN => "\x1b[32m".data
  | .LIGHTBLACK_EX => "\x1b[90m".data
  | .LIGHTBLUE_EX => "\x1b[94m".data
  | .LIGHTCYAN_EX => "\x1b[96m".data
  | .LIGHTGREEN_EX => "\x1b[92m".data
  | .LIGHTMAGENTA_EX => "\x1b[95m".data
  | .LIGHTRED_EX => "\x1b[91m".data
  | .LIGHTWHITE_EX => "\x1b[97m".data
  | .LIGHTYELLOW_EX => "\x1b[93m".data
  | .RED => "\x1b[31m".data
  | .RESET => "\x1b[39m".data
  | .WHITE => "\x1b[37m".data
  | .YELLOW => "\x1b[33m".data

/-- Python `ColorName[name]` (Enum lookup by member name); `none` models the
`KeyError` raised for an unknown name. -/
def colorName? (s : Str) : Option ColorName :=
  if s = "NONE".data then some .NONE
  else if s = "BLACK".data then some .BLACK
  else if s = "BLUE".data then some .BLUE
  else if s = "CYAN".data then some .CYAN
  else if s = "GREEN".data then some .GREEN
  else if s = "LIGHTBLACK_EX".data then some .LIGHTBLACK_EX
  else if s = "LIGHTBLUE_EX".data then some .LIGHTBLUE_EX
  else if s = "LIGHTCYAN_EX".data then some .LIGHTCYAN_EX
  else if s = "LIGHTGREEN_EX".data then some .LIGHTGREEN_EX
  else if s = "LIGHTMAGENTA_EX".data then some .LIGHTMAGENTA_EX
  else if s = "LIGHTRED_EX".data then some .LIGHTRED_EX
  else if s = "LIGHTWHITE_EX".data then some .LIGHTWHITE_EX
  else if s = "LIGHTYELLOW_EX".data then some .LIGHTYELLOW_EX
  else if s = "RED".data then some .RED
  else if s = "RESET".data then some .RESET
  else if s = "WHITE".data then some .WHITE
  else if s = "YELLOW".data then some .YELLOW
  else none

/-- `Highlighter` (logview.py lines 67-78). -/
structure Highlighter where
  text : Str
  color_enum : ColorName
deriving DecidableEq

/-- The `highlighted` attribute computed by `Highlighter.__post_init__`
(logview.py lines 74-78). -/
def Highlighter.highlighted (h : Highlighter) : Str :=
  match h.color_enum with
  | .NONE => h.text
  | c => c.value ++ h.text ++ ColorName.RESET.value

/-- `colorize_line` (logview.py lines 81-86): replace each phrase by its
highlighted form, unless the line already holds an ANSI start sequence. -/
def colorize_line (line : Str) (phrases : List Highlighter) : Str :=
  if containsSub line ['\x1b', '['] then line
  else phrases.foldl (fun l phrase => pyReplace l phrase.text phrase.highlighted) line

/-- The Python exceptions the modelled operations can raise. -/
inductive PyError
  | keyError
  | fileNotFoundError
  | indexError
  | attributeError
deriving DecidableEq

deriving instance DecidableEq for Except

/-- A TOML value as it appears in the `[tool.logview]` table. -/
inductive TomlValue
  | str (s : Str)
  | bool (b : Bool)
  | strList (l : List Str)
  | strMap (m : List (Str × Str))
deriving DecidableEq

/-- The built-in default configuration text (logview.py lines 93-138). -/
def default_config : Str :=
  "\n[tool.logview]\n# Provide direction to --auto-locate-logfile\nlog_file_directory = \"\"\narchives = \"logs*.zip\"\nrepository = \"\"    # <GitHub user login name>/project\ncontains_member = \"*.txt\"  # archive member (wildcards allowed)\n\ndo_not_scan = [\"*\",]\ndo_not_show = []\nshow_at_end = []\nkeep_timetags = false\n\n# Do not print log lines containing any of these patterns.\ndo_not_print = [\n    \" remote: Counting objects: \",\n    \" remote: Compressing objects: \",\n    \" Receiving objects: \",\n    \" Resolving deltas: \",\n]\n\nsummary_title = \"errors\"\nsummary_color = \"RED\"\n# Entire line containing the string is added to summary. Any case matches.\nsummary_patterns = [\n    \"warning\",\n     \"error\",\n     \"Process completed with exit code 1\",\n]\n\n# Line containing the exact string is exempt from summary checking above.\nsummary_exemptions = [\n    \"Evaluating continue on error\",\n    \"hint: of your new repositories, which will suppress this warning, call:\",\n    \"fail_ci_if_error: false\",\n]\n\n# Colorize these phrases in a log line. The color must be a name\n# defined by colorama.Fore.\n[tool.logview.phrases]\n    \" OK\" = \"GREEN\"\n    \"PASSED\" = \"GREEN\"\n    \"FAILED\" = \"RED\"\n    \"SKIPPED\" = \"LIGHTYELLOW_EX\"\n    \"hint:\" =  \"GREEN\"\n".data

/-- The `[tool.logview]` table produced by `tomllib.loads(default_config)`
(the parse of the text above, transcribed key for key in document order;
`phrases` holds the `[tool.logview.phrases]` sub-table). -/
def default_config_table : List (Str × TomlValue) :=
  [("log_file_directory".data, .str []),
   ("archives".data, .str "logs*.zip".data),
   ("repository".data, .str []),
   ("contains_member".data, .str "*.txt".data),
   ("do_not_scan".data, .strList ["*".data]),
   ("do_not_show".data, .strList []),
   ("show_at_end".data, .strList []),
   ("keep_timetags".data, .bool false),
   ("do_not_print".data, .strList
     [" remote: Counting objects: ".data,
      " remote: Compressing objects: ".data,
      " Receiving objects: ".data,
      " Resolving deltas: ".data]),
   ("summary_title".data, .str "errors".data),
   ("summary_color".data, .str "RED".data),
   ("summary_patterns".data, .strList
     ["warning".data, "error".data, "Process completed with exit code 1".data]),
   ("summary_exemptions".data, .strList
     ["Evaluating continue on error".data,
      "hint: of your new repositories, which will suppress this warning, call:".data,
      "fail_ci_if_error: false".data]),
   ("phrases".data, .strMap
     [(" OK".data, "GREEN".data),
      ("PASSED".data, "GREEN".data),
      ("FAILED".data, "RED".data),
      ("SKIPPED".data, "LIGHTYELLOW_EX".data),
      ("hint:".data, "GREEN".data)])]

/-- The documented configuration keys (the keys of the default
configuration). -/
def documentedKeys : List Str :=
  ["log_file_directory".data, "archives".data, "repository".data,
   "contains_member".data, "do_not_scan".data, "do_not_show".data,
   "show_at_end".data, "keep_timetags".data, "do_not_print".data,
   "summary_title".data, "summary_color".data, "summary_patterns".data,
   "summary_exemptions".data, "phrases".data]

/-- The unknown-key diagnostic of `Config.get` (logview.py lines 168-169)
with `str.format` applied. -/
def unknownKeyMsg (name : Str) : Str :=
  "Error- Unknown key ".data ++ name ++ " in config file [tool.logview]. Spelling?.".data

/-- The unknown-color diagnostic of `Config.__init__` (logview.py lines
159-160) with `str.format` applied. -/
def unknownColorMsg (color : Str) : Str :=
  "Unknown color name ".data ++ color ++ " in config file [tool.logview.phrases]".data

/-- `Config.get` (logview.py lines 165-170) over the parsed `[tool.logview]`
table: the diagnostic lines printed, and the result of
`self._my_config[name]` — `none` models the `KeyError` a missing key
raises. -/
def configGet (table : List (Str × TomlValue)) (name : Str) :
    List Str × Option TomlValue :=
  (if (List.lookup name table).isNone then [unknownKeyMsg name] else [],
   List.lookup name table)

/-- The phrase-construction loop of `Config.__init__` (logview.py lines
155-163): the diagnostics printed, and either the built `Highlighter` list
or the re-raised `KeyError` of the first unknown color name. -/
def buildPhrases : List (Str × Str) → List Str × Except PyError (List Highlighter)
  | [] => ([], .ok [])
  | (text, color) :: rest =>
    match colorName? color with
    | none => ([unknownColorMsg color], .error .keyError)
    | some c =>
      let dr := buildPhrases rest
      (dr.1, dr.2.map fun hs => ⟨text, c⟩ :: hs)

/-- The phrase part of `Config.__init__` on a parsed `[tool.logview]` table:
`self._my_config["phrases"]` (a missing key raises `KeyError`, a non-table
value has no `.items()` and raises `AttributeError`), then the loop
above. -/
def configInitPhrases (table : List (Str × TomlValue)) :
    List Str × Except PyError (List Highlighter) :=
  match List.lookup "phrases".data table with
  | some (.strMap ps) => buildPhrases ps
  | some _ => ([], .error .attributeError)
  | none => ([], .error .keyError)

/-- A filesystem: maps a path to the text stored there, `none` when no such
file exists. -/
def FileSystem := Str → Option Str

/-- `Path.read_text` (logview.py line 151): reading a missing file raises
`FileNotFoundError`. -/
def read_text (fs : FileSystem) (p : Str) : Except PyError Str :=
  match fs p with
  | none => .error .fileNotFoundError
  | some t => .ok t

/-- The file-reading part of `Config.__init__` (logview.py lines 147-151):
the default text when no path is given, else the file's text (and the
file's `FileNotFoundError` when it does not exist). -/
def config_read_text (fs : FileSystem) (config_file_path : Option Str) :
    Except PyError Str :=
  match config_file_path with
  | none => .ok default_config
  | some p => read_text fs p

/-- The configuration values the scanning and display functions obtain from
`Config.get` (every documented key present, as produced by a parsed
configuration file) together with `Config.phrases` as built by
`Config.__init__`. -/
structure Config where
  log_file_directory : Str
  archives : Str
  repository : Str
  contains_member : Str
  do_not_scan : List Str
  do_not_show : List Str
  show_at_end : List Str
  keep_timetags : Bool
  do_not_print : List Str
  summary_title : Str
  summary_color : Str
  summary_patterns : List Str
  summary_exemptions : List Str
  phrases : List Highlighter
deriving DecidableEq

/-- The `Config` values of the built-in default configuration. -/
def defaultConfigValues : Config where
  log_file_directory := []
  archives := "logs*.zip".data
  repository := []
  contains_member := "*.txt".data
  do_not_scan := ["*".data]
  do_not_show := []
  show_at_end := []
  keep_timetags := false
  do_not_print :=
    [" remote: Counting objects: ".data,
     " remote: Compressing objects: ".data,
     " Receiving objects: ".data,
     " Resolving deltas: ".data]
  summary_title := "errors".data
  summary_color := "RED".data
  summary_patterns :=
    ["warning".data, "error".data, "Process completed with exit code 1".data]
  summary_exemptions :=
    ["Evaluating continue on error".data,
     "hint: of your new repositories, which will suppress this warning, call:".data,
     "fail_ci_if_error: false".data]
  phrases :=
    [⟨" OK".data, .GREEN⟩, ⟨"PASSED".data, .GREEN⟩, ⟨"FAILED".data, .RED⟩,
     ⟨"SKIPPED".data, .LIGHTYELLOW_EX⟩, ⟨"hint:".data, .GREEN⟩]

/-! ### `check_one_file` (logview.py lines 312-359) -/

/-- The line after the optional time-tag chop (logview.py lines 326-329):
when `keep_timetags` is false the first `TIMETAG_SIZE` characters are
removed unconditionally. -/
def scannedLine (cfg : Config) (line : Str) : Str :=
  if !cfg.keep_timetags then line.drop TIMETAG_SIZE else line

/-- The summary entry `"{: 3d} {} {}".format(num, filename, line)`
(logview.py line 345). -/
def summaryEntry (num : Nat) (filename line : Str) : Str :=
  fmtNum3 num ++ [' '] ++ filename ++ [' '] ++ line

/-- A printed line `print(format(num, " 3d"), line)` (logview.py lines 353
and 358): `print` joins its two arguments with one space. -/
def printedLine (num : Nat) (line : Str) : Str :=
  fmtNum3 num ++ [' '] ++ line

/-- One iteration of the `check_one_file` loop (logview.py lines 321-358):
the lines printed and the summary entries contributed by line number `num`,
or the `KeyError` of an unknown `summary_color` when a flagged line is
printed. -/
def checkLineStep (cfg : Config) (filename : Str) (lowered_errors : List Str)
    (is_printed : Bool) (num : Nat) (line : Str) :
    Except PyError (List Str × List Str) :=
  if cfg.do_not_print.any (fun pattern => containsSub line pattern) then .ok ([], [])
  else
    let line1 := scannedLine cfg line
    if lowered_errors.any (fun error =>
        containsSub (pyLower line1) error &&
          !(cfg.summary_exemptions.any fun exempt => containsSub line1 exempt)) then
      if is_printed then
        match colorName? cfg.summary_color with
        | none => .error .keyError
        | some c =>
          .ok ([printedLine num (colorize_line line1 [⟨line1, c⟩])],
               [summaryEntry num filename line1])
      else .ok ([], [summaryEntry num filename line1])
    else
      if is_printed then .ok ([printedLine num (colorize_line line1 cfg.phrases)], [])
      else .ok ([], [])

/-- The enumerated loop of `check_one_file` over the remaining lines,
starting at line number `num`. -/
def checkLines (cfg : Config) (filename : Str) (lowered_errors : List Str)
    (is_printed : Bool) : Nat → List Str → Except PyError (List Str × List Str)
  | _, [] => .ok ([], [])
  | num, line :: rest => do
    let ps ← checkLineStep cfg filename lowered_errors is_printed num line
    let rs ← checkLines cfg filename lowered_errors is_printed (num + 1) rest
    return (ps.1 ++ rs.1, ps.2 ++ rs.2)

/-- `check_one_file` (logview.py lines 312-359): the pair of the printed
lines and the returned summary list. -/
def check_one_file (cfg : Config) (filename text : Str) (is_printed : Bool) :
    Except PyError (List Str × List Str) :=
  checkLines cfg filename (cfg.summary_patterns.map pyLower) is_printed 1
    (splitlines text)

/-! ### `show_action_log` (logview.py lines 251-309) -/

/-- The body of the main member loop of `show_action_log` (logview.py lines
263-275) for one member: the lines printed and the summary entries
contributed. -/
def memberStep (cfg : Config) (z : ZipArchive) (not_scanned not_printed : List Str)
    (filename1 : Str) : Except PyError (List Str × List Str) :=
  if not_scanned.contains filename1 then .ok ([], [])
  else
    let is_printed := !(not_printed.contains filename1)
    let header :=
      if is_printed then [[], List.replicate 80 '=', "name: ".data ++ filename1, []]
      else ([] : List Str)
    do
      let ps ← check_one_file cfg filename1 (z.read filename1) is_printed
      return (header ++ ps.1, ps.2)

/-- The main member loop of `show_action_log` over the ordered filenames. -/
def scanLoop (cfg : Config) (z : ZipArchive) (not_scanned not_printed : List Str) :
    List Str → Except PyError (List Str × List Str)
  | [] => .ok ([], [])
  | f :: rest => do
    let ps ← memberStep cfg z not_scanned not_printed f
    let rs ← scanLoop cfg z not_scanned not_printed rest
    return (ps.1 ++ rs.1, ps.2 ++ rs.2)

/-- The summary-rendering section of `show_action_log` (logview.py lines
279-291). -/
def summarySection (cfg : Config) (summary : List Str) : Except PyError (List Str) :=
  if summary.isEmpty then .ok ["Nothing found for summary.".data]
  else
    match colorName? cfg.summary_color with
    | none => .error .keyError
    | some c =>
      let error_phrases := cfg.summary_patterns.map fun s => Highlighter.mk s c
      .ok ((" ------------------- ".data ++ cfg.summary_title ++
              " ------------------- ".data) ::
           summary.map fun line => colorize_line line error_phrases)

/-- The inner loop of the `show_at_end` section (logview.py lines 301-306):
each selected member is shown again with `is_printed=True` and its summary
discarded. -/
def showAtEndLoop (cfg : Config) (z : ZipArchive) :
    List Str → Except PyError (List Str)
  | [] => .ok []
  | f :: rest => do
    let ps ← check_one_file cfg f (z.read f) true
    let prs ← showAtEndLoop cfg z rest
    return [List.replicate 80 '=', "name: ".data ++ f] ++ ps.1 ++ [[]] ++ prs

/-- The `show_at_end` section of `show_action_log` (logview.py lines
293-306). -/
def showAtEndSection (cfg : Config) (z : ZipArchive) : Except PyError (List Str) :=
  if (select z cfg.show_at_end).isEmpty then .ok []
  else do
    let body ← showAtEndLoop cfg z (select z cfg.show_at_end)
    return [[], [],
      "Displaying archive members selected by 'show_at_end':".data, []] ++ body

/-- `show_action_log` (logview.py lines 251-309): the lines printed, paired
with the final value of the local `summary` list (returned so that theorems
can speak about the collected summary).  On an archive with no member the
source raises `IndexError` inside `MemberFilter.__init__`. -/
def show_action_log (logfile_path : Str) (cfg : Config) (z : ZipArchive) :
    Except PyError (List Str × List Str) :=
  if (orderedFilenames z).isEmpty then .error .indexError
  else
    match scanLoop cfg z (select z cfg.do_not_scan) (select z cfg.do_not_show)
        (orderedFilenames z) with
    | .error e => .error e
    | .ok lps =>
      match summarySection cfg lps.2 with
      | .error e => .error e
      | .ok sumpr =>
        match showAtEndSection cfg z with
        | .error e => .error e
        | .ok endpr =>
          .ok ([logfile_path] ++
               (match identify_repository z with
                | some r => ["repository:  ".data ++ r]
                | none => []) ++
               [[]] ++ lps.1 ++ [[], []] ++ sumpr ++ endpr ++
               [[], logfile_path ++ [' '] ++ z.timestamp], lps.2)

/-- A directory of zip files: maps a path to the archive stored there,
`none` when no such file exists. -/
def ZipFileSystem := Str → Option ZipArchive

/-- `ZipFile(logfile_path)` (logview.py line 255): opening a missing archive
raises `FileNotFoundError`. -/
def zip_open (zfs : ZipFileSystem) (p : Str) : Except PyError ZipArchive :=
  match zfs p with
  | none => .error .fileNotFoundError
  | some z => .ok z

/-- `show_action_log` reached through the `ZipFile` open, as invoked on a
log file path. -/
def show_action_log_io (zfs : ZipFileSystem) (logfile_path : Str) (cfg : Config) :
    Except PyError (List Str × List Str) :=
  match zip_open zfs logfile_path with
  | .error e => .error e
  | .ok z => show_action_log logfile_path cfg z

/-! ### `locate_log_file` (logview.py lines 362-383) -/

/-- Python tuple comparison `(ts1, p1) <= (ts2, p2)` for the
`(timestamp, Path)` pairs of `locate_log_file`: lexicographic, with paths
compared by their (normalized) path string as CPython's `PurePath` ordering
does — the directory glob yields normalized paths. -/
def tsPathLe (a b : Str × Str) : Bool :=
  strLt a.1 b.1 || (a.1 == b.1 && strLe a.2 b.2)

/-- The descending order used by `sorted(timestamps, reverse=True)`
(logview.py line 380): `a` comes before `b` when `a >= b`. -/
def tsPathGe (a b : Str × Str) : Prop := tsPathLe b a = true

instance : DecidableRel tsPathGe := fun _ _ => instDecidableEqBool _ _

/-- The `timestamps` list built by the loop of `locate_log_file`
(logview.py lines 368-378): a file contributes an entry when some member
matches `contains_member`, and one more entry when its identified
repository equals the configured one. -/
def locateTimestamps (cfg : Config) (files : List (Str × ZipArchive)) :
    List (Str × Str) :=
  files.flatMap fun pz =>
    (if (select pz.2 [cfg.contains_member]).isEmpty then []
     else [(pz.2.timestamp, pz.1)]) ++
    (if identify_repository pz.2 = some cfg.repository then [(pz.2.timestamp, pz.1)]
     else [])

/-- `sorted(timestamps, reverse=True)` (logview.py line 380). -/
def sortDescTs (l : List (Str × Str)) : List (Str × Str) :=
  List.insertionSort tsPathGe l

/-- `locate_log_file` (logview.py lines 362-383) over the `(path, archive)`
pairs the directory glob produced (the glob's enumeration order cannot
influence the result: the sort compares full tuples, so the maximum is
determined by the set of entries alone). -/
def locate_log_file (cfg : Config) (files : List (Str × ZipArchive)) : Option Str :=
  match sortDescTs (locateTimestamps cfg files) with
  | [] => none
  | tp :: _ => some tp.2

/-- The selection predicate `locate_log_file` implements for one archive:
some member matches `contains_member`, or the identified (first) repository
line equals the configured repository. -/
def archiveSatisfies (cfg : Config) (z : ZipArchive) : Prop :=
  select z [cfg.contains_member] ≠ [] ∨ identify_repository z = some cfg.repository

instance (cfg : Config) (z : ZipArchive) : Decidable (archiveSatisfies cfg z) := by
  unfold archiveSatisfies; infer_instance

/-! ### Sample values used by concrete counterexamples and witnesses -/

/-- A configuration for claim C4's counterexample: `contains_member` that
matches nothing, and a configured repository of `B`. -/
def configC4 : Config :=
  { defaultConfigValues with contains_member := "*.zip".data, repository := "B".data }

/-- An archive for claim C4's counterexample: one member whose first
repository line names `A` and whose second names `B`. -/
def archiveC4 : ZipArchive :=
  ⟨[("a.txt".data,
     "2021-11-14T02:31:28.6752380Zx  repository: A\n2021-11-14T02:31:29.0000000Zx  repository: B\n".data)]⟩

/-- A configuration with an unknown `summary_color`, for claim C8's
counterexample. -/
def configBadColor : Config :=
  { defaultConfigValues with summary_color := "BADCOLOR".data }

/-- A log line holding a 28-character time tag followed by text that matches
the summary pattern `error`. -/
def flaggedLine : Str :=
  "2021-11-14T02:31:28.6752380Zerror x".data

/-- A configuration for claim C10's witness: scan everything, display
nothing. -/
def configC10 : Config :=
  { defaultConfigValues with do_not_scan := [], do_not_show := ["*".data] }

/-- An archive for claim C10's witness: a single member whose one line is
flagged for the summary. -/
def archiveC10 : ZipArchive :=
  ⟨[("a.txt".data, flaggedLine)]⟩

/-! ### Order lemmas for the sort comparisons -/

theorem strLe_total (a b : Str) : strLe a b = true ∨ strLe b a = true := by
  induction a generalizing b with
  | nil => left; rfl
  | cons x as ih =>
    cases b with
    | nil => right; rfl
    | cons y bs =>
      by_cases hxy : x = y
      · subst hxy
        rcases ih bs with h | h
        · left; simp [strLe, h]
        · right; simp [strLe, h]
      · rcases lt_or_gt_of_ne hxy with h | h
        · left; simp [strLe, hxy, h]
        · right; simp [strLe, Ne.symm hxy, h, not_lt_of_gt h]

theorem strLe_trans {a b c : Str} (h1 : strLe a b = true) (h2 : strLe b c = true) :
    strLe a c = true := by
  induction a generalizing b c with
  | nil => rfl
  | cons x as ih =>
    cases b with
    | nil => simp [strLe] at h1
    | cons y bs =>
      cases c with
      | nil => simp [strLe] at h2
      | cons z cs =>
        by_cases hxy : x = y <;> by_cases hyz : y = z
        · subst hxy; subst hyz
          simp only [strLe, if_pos rfl] at h1 h2 ⊢
          exact ih h1 h2
        · subst hxy
          simp only [strLe, if_pos rfl, if_neg hyz] at h2 ⊢
          exact h2
        · subst hyz
          simp only [strLe, if_pos rfl, if_neg hxy] at h1 ⊢
          exact h1
        · simp only [strLe, if_neg hxy, if_neg hyz, decide_eq_true_eq] at h1 h2
          by_cases hxz : x = z
          · subst hxz; exact absurd (lt_trans h1 h2) (lt_irrefl x)
          · simp [strLe, hxz, lt_trans h1 h2]

theorem strLe_refl (a : Str) : strLe a a = true := by
  induction a with
  | nil => rfl
  | cons x as ih => simp [strLe, ih]

theorem strLt_trans {a b c : Str} (h1 : strLt a b = true) (h2 : strLt b c = true) :
    strLt a c = true := by
  induction a generalizing b c with
  | nil =>
    cases b with
    | nil => simp [strLt] at h1
    | cons y bs => cases c with
      | nil => simp [strLt] at h2
      | cons z cs => rfl
  | cons x as ih =>
    cases b with
    | nil => simp [strLt] at h1
    | cons y bs =>
      cases c with
      | nil => simp [strLt] at h2
      | cons z cs =>
        by_cases hxy : x = y <;> by_cases hyz : y = z
        · subst hxy; subst hyz
          simp only [strLt, if_pos rfl] at h1 h2 ⊢
          exact ih h1 h2
        · subst hxy
          simp only [strLt, if_pos rfl, if_neg hyz] at h2 ⊢
          exact h2
        · subst hyz
          simp only [strLt, if_pos rfl, if_neg hxy] at h1 ⊢
          exact h1
        · simp only [strLt, if_neg hxy, if_neg hyz, decide_eq_true_eq] at h1 h2
          by_cases hxz : x = z
          · subst hxz; exact absurd (lt_trans h1 h2) (lt_irrefl x)
          · simp [strLt, hxz, lt_trans h1 h2]

theorem strLe_iff_lt_or_eq {a b : Str} :
    strLe a b = true ↔ (strLt a b = true ∨ a = b) := by
  induction a generalizing b with
  | nil =>
    cases b with
    | nil => simp [strLe, strLt]
    | cons y bs => simp [strLe, strLt]
  | cons x as ih =>
    cases b with
    | nil => simp [strLe, strLt]
    | cons y bs =>
      by_cases hxy : x = y
      · subst hxy
        simp only [strLe, strLt, if_pos rfl, List.cons.injEq, true_and]
        exact ih
      · simp [strLe, strLt, hxy]

/-- Any occurrence of `x` sits before any occurrence of `y` in the sorted
list when the key of `x` is strictly below the key of `y`. -/
theorem sorted_precedes (l : List Str) (x y : Str)
    (hx : x ∈ l) (hy : y ∈ l)
    (hle : nameKeyLe x y) (hnle : ¬ nameKeyLe y x) :
    precedesIn x y (pySortedByNameKey l) := by
  haveI : IsTotal Str nameKeyLe :=
    ⟨fun a b => strLe_total (name_key_function a) (name_key_function b)⟩
  haveI : IsTrans Str nameKeyLe := ⟨fun _ _ _ h1 h2 => strLe_trans h1 h2⟩
  have hperm : (pySortedByNameKey l).Perm l := List.perm_insertionSort nameKeyLe l
  have hsorted : List.Sorted nameKeyLe (pySortedByNameKey l) :=
    List.sorted_insertionSort nameKeyLe l
  have hx' : x ∈ pySortedByNameKey l := (hperm.mem_iff).2 hx
  have hy' : y ∈ pySortedByNameKey l := (hperm.mem_iff).2 hy
  obtain ⟨i, hi⟩ := List.mem_iff_get.1 hx'
  obtain ⟨j, hj⟩ := List.mem_iff_get.1 hy'
  have hxy : x ≠ y := by
    intro h; subst h; exact hnle hle
  have hij : i ≠ j := by
    intro h; subst h; rw [hi] at hj; exact hxy hj
  rcases lt_or_gt_of_ne hij with h | h
  · exact ⟨i, j, h, hi, hj⟩
  · exfalso
    have := (List.pairwise_iff_get.1 hsorted) j i h
    rw [hi, hj] at this
    exact hnle this

/-! ### Claim C1 -/

/-- Claim C1 (counterexample): in an archive whose members are exactly
`file2.txt` and `file11.txt`, `ordered_filenames` does not place `file2.txt`
before `file11.txt`: the digit runs are not at the start of the name (nor
after a slash), so `name_key_function` leaves both names unchanged and plain
lexicographic order puts `file11.txt` first. -/
theorem claim_C1_counterexample :
    orderedFilenames ⟨[("file2.txt".data, "t".data), ("file11.txt".data, "u".data)]⟩ =
      ["file11.txt".data, "file2.txt".data] ∧
    ¬ precedesIn "file2.txt".data "file11.txt".data
        (orderedFilenames
          ⟨[("file2.txt".data, "t".data), ("file11.txt".data, "u".data)]⟩) := by
  decide

/-- Claim C1 (amended): the numeric-aware ordering applies to digit runs at
the start of a member name (or just after a slash): in every archive whose
members include `2.txt` and `11.txt`, `2.txt` is placed before `11.txt` in
`ordered_filenames`.  For `file2.txt` and `file11.txt` the digit runs are
not leading, so plain lexicographic order applies and `file11.txt` is
placed before `file2.txt`. -/
theorem claim_C1_amended (z w : ZipArchive)
    (h2 : "file2.txt".data ∈ memberNames z)
    (h11 : "file11.txt".data ∈ memberNames z)
    (g2 : "2.txt".data ∈ memberNames w)
    (g11 : "11.txt".data ∈ memberNames w) :
    precedesIn "file11.txt".data "file2.txt".data (orderedFilenames z) ∧
    precedesIn "2.txt".data "11.txt".data (orderedFilenames w) := by
  constructor
  · exact sorted_precedes _ _ _ h11 h2 (by decide) (by decide)
  · exact sorted_precedes _ _ _ g2 g11 (by decide) (by decide)

/-- Claim C1 (witness): the amended ordering facts at two concrete
archives. -/
theorem claim_C1_witness :
    precedesIn "file11.txt".data "file2.txt".data
      (orderedFilenames ⟨[("file2.txt".data, "t".data), ("file11.txt".data, "u".data)]⟩) ∧
    precedesIn "2.txt".data "11.txt".data
      (orderedFilenames ⟨[("2.txt".data, "t".data), ("11.txt".data, "u".data)]⟩) :=
  claim_C1_amended _ _ (by decide) (by decide) (by decide) (by decide)

/-! ### Claim C2 -/

theorem containsSub_of_mem {c : Char} {s : Str} (h : c ∈ s) :
    containsSub s [c] = true := by
  induction s with
  | nil => cases h
  | cons a t ih =>
    rcases List.mem_cons.1 h with h | h
    · subst h; simp [containsSub, List.isPrefixOf]
    · simp [containsSub, ih h]

theorem splitOnChar_of_not_mem {c : Char} {s : Str} (h : c ∉ s) :
    splitOnChar c s = [s] := by
  induction s with
  | nil => rfl
  | cons a t ih =>
    have ha : a ≠ c := fun hac => h (hac ▸ List.mem_cons_self a t)
    have ht : c ∉ t := fun hc => h (List.mem_cons_of_mem a hc)
    simp [splitOnChar, ha, ih ht]

/-- A pattern that contains no slash has at most one path part. -/
theorem pathParts_length_le_one {p : Str} (h : containsSub p ['/'] = false) :
    (pathParts p).length ≤ 1 := by
  have hmem : '/' ∉ p := fun hc => by simp [containsSub_of_mem hc] at h
  have hlead : (p.takeWhile fun c => c == '/') = [] := by
    cases p with
    | nil => rfl
    | cons a t =>
      have ha : a ≠ '/' := fun hac => hmem (hac ▸ List.mem_cons_self a t)
      simp [List.takeWhile_cons, ha]
  simp only [pathParts, splitOnChar_of_not_mem hmem, hlead, List.length_nil,
    if_pos rfl]
  exact le_trans (List.length_filter_le _ _) (by simp)

/-- Claim C2 (counterexample): the member named `./x.txt` contains a `/`,
yet the slashless pattern `*.txt` matches it — `Path("./x.txt").parts` is
just `("x.txt",)` — and `select` reports it (under its joined name
`x.txt`). -/
theorem claim_C2_counterexample :
    select ⟨[("./x.txt".data, "t".data)]⟩ ["*.txt".data] = ["x.txt".data] ∧
    containsSub "./x.txt".data ['/'] = true := by
  decide

/-- Claim C2 (amended): `select` matches a member only if its
`pathlib.Path(...).parts` (empty and `.` components dropped) number exactly
the pattern's parts and every part fnmatch-matches the corresponding pattern
part, and the reported name is the `/`-join of those parts.  A pattern
without `/` therefore only matches members with at most one normalized path
part — but the member's stored name may still contain `/` (as `./x.txt`
does), so the claim's final clause fails as literally stated. -/
theorem claim_C2_amended (z : ZipArchive) (patterns : List Str) (n : Str)
    (hn : n ∈ select z patterns) :
    ∃ p ∈ patterns, ∃ fp ∈ memberParts z,
      fp.length = (pathParts p).length ∧
      (fp.zip (pathParts p)).all (fun q => fnmatch q.1 q.2) = true ∧
      n = joinParts fp ∧
      (containsSub p ['/'] = false → fp.length ≤ 1) := by
  unfold select at hn
  rw [List.mem_flatMap] at hn
  obtain ⟨p, hp, hmem⟩ := hn
  rw [List.mem_filterMap] at hmem
  obtain ⟨fp, hfp, heq⟩ := hmem
  by_cases hcond : fp.length = (pathParts p).length ∧
      (fp.zip (pathParts p)).all (fun q => fnmatch q.1 q.2) = true
  · rw [if_pos hcond] at heq
    refine ⟨p, hp, fp, hfp, hcond.1, hcond.2, (Option.some_inj.1 heq).symm, ?_⟩
    intro hs
    exact hcond.1 ▸ pathParts_length_le_one hs
  · rw [if_neg hcond] at heq
    cases heq

/-- Claim C2 (witness): the amended match characterization at a concrete
archive and pattern. -/
theorem claim_C2_witness :
    ∃ p ∈ ["*.txt".data],
      ∃ fp ∈ memberParts (⟨[("c.txt".data, "t".data)]⟩ : ZipArchive),
        fp.length = (pathParts p).length ∧
        (fp.zip (pathParts p)).all (fun q => fnmatch q.1 q.2) = true ∧
        "c.txt".data = joinParts fp ∧
        (containsSub p ['/'] = false → fp.length ≤ 1) :=
  claim_C2_amended ⟨[("c.txt".data, "t".data)]⟩ ["*.txt".data] "c.txt".data (by decide)

/-! ### Claim C5 -/

/-- The construction loop re-raises at the first unknown color name, with
only that color's diagnostic printed. -/
theorem buildPhrases_first_bad (ps : List (Str × Str)) (text color : Str)
    (rest : List (Str × Str))
    (hok : ∀ q ∈ ps, (colorName? q.2).isSome = true)
    (hbad : colorName? color = none) :
    buildPhrases (ps ++ (text, color) :: rest) =
      ([unknownColorMsg color], .error .keyError) := by
  induction ps with
  | nil => simp [buildPhrases, hbad]
  | cons q qs ih =>
    obtain ⟨t1, c1⟩ := q
    have hq := hok (t1, c1) (List.mem_cons_self _ _)
    obtain ⟨c, hc⟩ := Option.isSome_iff_exists.1 hq
    have ihq := ih fun r hr => hok r (List.mem_cons_of_mem _ hr)
    simp [buildPhrases, hc, ihq, Except.map]

/-- Claim C5 (counterexample): `Config.get` on an unknown key prints the
diagnostic but then still evaluates `self._my_config[name]`, whose lookup
fails — the `none` here is the `KeyError` that aborts the run, contrary to
the claim's "without aborting the run". -/
theorem claim_C5_counterexample :
    configGet default_config_table "no_such_key".data =
      ([unknownKeyMsg "no_such_key".data], none) := by
  decide

/-- Claim C5 (amended): looking up an unknown key via `Config.get` prints a
diagnostic and then raises `KeyError` (the dictionary access aborts the run),
while an unknown color name in `[tool.logview.phrases]` prints a diagnostic
and re-raises the `KeyError` out of `Config` construction. -/
theorem claim_C5_amended (table : List (Str × TomlValue)) (name : Str)
    (hmiss : List.lookup name table = none)
    (ps : List (Str × Str)) (text color : Str) (rest : List (Str × Str))
    (htable : List.lookup "phrases".data table =
      some (.strMap (ps ++ (text, color) :: rest)))
    (hok : ∀ q ∈ ps, (colorName? q.2).isSome = true)
    (hbad : colorName? color = none) :
    configGet table name = ([unknownKeyMsg name], none) ∧
    configInitPhrases table = ([unknownColorMsg color], .error .keyError) := by
  constructor
  · simp [configGet, hmiss]
  · simp [configInitPhrases, htable,
      buildPhrases_first_bad ps text color rest hok hbad]

/-- Claim C5 (witness): the amended behavior at a concrete table with an
unknown key and an unknown phrase color. -/
theorem claim_C5_witness :
    configGet [("phrases".data, TomlValue.strMap [("x".data, "BADCOLOR".data)])]
        "missing".data = ([unknownKeyMsg "missing".data], none) ∧
    configInitPhrases
        [("phrases".data, TomlValue.strMap [("x".data, "BADCOLOR".data)])] =
      ([unknownColorMsg "BADCOLOR".data], .error .keyError) :=
  claim_C5_amended _ _ (by decide) [] "x".data "BADCOLOR".data [] (by decide)
    (by decide) (by decide)

/-! ### Claim C7 -/

/-- Claim C7: the built-in default configuration constructs without raising —
every phrase color is a known `ColorName`, so `Config.__init__` builds the
highlighter list with no diagnostics — and every documented key is
retrievable via `Config.get` with no unknown-key diagnostic. -/
theorem claim_C7_theorem :
    configInitPhrases default_config_table =
      ([], .ok [⟨" OK".data, .GREEN⟩, ⟨"PASSED".data, .GREEN⟩,
                ⟨"FAILED".data, .RED⟩, ⟨"SKIPPED".data, .LIGHTYELLOW_EX⟩,
                ⟨"hint:".data, .GREEN⟩]) ∧
    documentedKeys.all (fun k =>
      (configGet default_config_table k).1.isEmpty &&
      (configGet default_config_table k).2.isSome) = true := by
  decide

/-! ### Claim C6 -/

/-- Claim C6: a config-file or log-archive path that does not exist makes
the operation raise `FileNotFoundError`, which propagates out (the source
installs no handler, retry, or fallback): `Config.__init__`'s `read_text`
and `show_action_log`'s `ZipFile` open both surface the error as the final
result of the operation. -/
theorem claim_C6_theorem (fs : FileSystem) (p : Str) (zfs : ZipFileSystem)
    (q : Str) (cfg : Config)
    (hf : fs p = none) (hz : zfs q = none) :
    config_read_text fs (some p) = .error .fileNotFoundError ∧
    show_action_log_io zfs q cfg = .error .fileNotFoundError := by
  constructor
  · simp [config_read_text, read_text, hf]
  · simp [show_action_log_io, zip_open, hz]

/-- Claim C6 (witness): the aborts at a concrete empty filesystem. -/
theorem claim_C6_witness :
    config_read_text (fun _ => none) (some "logview.toml".data) =
        .error .fileNotFoundError ∧
    show_action_log_io (fun _ => none) "logs.zip".data defaultConfigValues =
        .error .fileNotFoundError :=
  claim_C6_theorem _ _ _ _ _ rfl rfl

/-! ### Lemmas about `check_one_file` -/

/-- With `is_printed=False` and a line not discarded, a step contributes no
printed line and exactly the flag-dependent summary entry. -/
theorem checkLineStep_false_eq (cfg : Config) (filename : Str)
    (lowered_errors : List Str) (num : Nat) (line : Str)
    (hkeep : cfg.do_not_print.any (fun pattern => containsSub line pattern) = false) :
    checkLineStep cfg filename lowered_errors false num line =
      .ok ([], if lowered_errors.any (fun error =>
          containsSub (pyLower (scannedLine cfg line)) error &&
            !(cfg.summary_exemptions.any fun exempt =>
                containsSub (scannedLine cfg line) exempt)) then
          [summaryEntry num filename (scannedLine cfg line)]
        else []) := by
  cases hflag : (lowered_errors.any fun error =>
      containsSub (pyLower (scannedLine cfg line)) error &&
        !(cfg.summary_exemptions.any fun exempt =>
            containsSub (scannedLine cfg line) exempt)) with
  | false => simp [checkLineStep, hkeep, hflag]
  | true => simp [checkLineStep, hkeep, hflag]

/-- With `is_printed=False` each step contributes no printed output and
never raises. -/
theorem checkLineStep_false_ok (cfg : Config) (filename : Str)
    (lowered_errors : List Str) (num : Nat) (line : Str) :
    ∃ su, checkLineStep cfg filename lowered_errors false num line = .ok ([], su) := by
  cases hkeep : (cfg.do_not_print.any fun pattern => containsSub line pattern) with
  | true => exact ⟨[], by simp [checkLineStep, hkeep]⟩
  | false => exact ⟨_, checkLineStep_false_eq cfg filename lowered_errors num line hkeep⟩

/-- With `is_printed=False` the whole loop prints nothing and never
raises. -/
theorem checkLines_false_ok (cfg : Config) (filename : Str)
    (lowered_errors : List Str) : ∀ (lines : List Str) (num : Nat),
    ∃ su, checkLines cfg filename lowered_errors false num lines = .ok ([], su) := by
  intro lines
  induction lines with
  | nil => exact fun _ => ⟨[], rfl⟩
  | cons l rest ih =>
    intro num
    obtain ⟨su1, h1⟩ := checkLineStep_false_ok cfg filename lowered_errors num l
    obtain ⟨su2, h2⟩ := ih (num + 1)
    exact ⟨su1 ++ su2, by simp [checkLines, h1, h2, Bind.bind, Except.bind, Pure.pure, Except.pure]⟩

/-- With a known `summary_color`, a step never raises, its summary does not
depend on `is_printed`, and with `is_printed=False` nothing is printed. -/
theorem checkLineStep_sound (cfg : Config) (filename : Str)
    (lowered_errors : List Str) (c : ColorName)
    (hc : colorName? cfg.summary_color = some c) (b : Bool) (num : Nat) (line : Str) :
    ∃ pr su, checkLineStep cfg filename lowered_errors b num line = .ok (pr, su) ∧
      checkLineStep cfg filename lowered_errors false num line = .ok ([], su) := by
  cases hkeep : (cfg.do_not_print.any fun pattern => containsSub line pattern) with
  | true => exact ⟨[], [], by simp [checkLineStep, hkeep], by simp [checkLineStep, hkeep]⟩
  | false =>
    cases hflag : (lowered_errors.any fun error =>
        containsSub (pyLower (scannedLine cfg line)) error &&
          !(cfg.summary_exemptions.any fun exempt =>
              containsSub (scannedLine cfg line) exempt)) with
    | true =>
      cases b with
      | false =>
        exact ⟨[], [summaryEntry num filename (scannedLine cfg line)],
          by simp [checkLineStep, hkeep, hflag], by simp [checkLineStep, hkeep, hflag]⟩
      | true =>
        refine ⟨[printedLine num
            (colorize_line (scannedLine cfg line) [⟨scannedLine cfg line, c⟩])],
          [summaryEntry num filename (scannedLine cfg line)],
          by simp [checkLineStep, hkeep, hflag, hc],
          by simp [checkLineStep, hkeep, hflag]⟩
    | false =>
      cases b with
      | false => exact ⟨[], [], by simp [checkLineStep, hkeep, hflag],
          by simp [checkLineStep, hkeep, hflag]⟩
      | true =>
        exact ⟨[printedLine num (colorize_line (scannedLine cfg line) cfg.phrases)], [],
          by simp [checkLineStep, hkeep, hflag], by simp [checkLineStep, hkeep, hflag]⟩

/-- With a known `summary_color` the loop never raises, its summary is the
same for every `is_printed`, and with `is_printed=False` nothing is
printed. -/
theorem checkLines_sound (cfg : Config) (filename : Str)
    (lowered_errors : List Str) (c : ColorName)
    (hc : colorName? cfg.summary_color = some c) (b : Bool) :
    ∀ (lines : List Str) (num : Nat), ∃ pr su,
      checkLines cfg filename lowered_errors b num lines = .ok (pr, su) ∧
      checkLines cfg filename lowered_errors false num lines = .ok ([], su) := by
  intro lines
  induction lines with
  | nil => exact fun _ => ⟨[], [], rfl, rfl⟩
  | cons l rest ih =>
    intro num
    obtain ⟨pr1, su1, h1, h1f⟩ :=
      checkLineStep_sound cfg filename lowered_errors c hc b num l
    obtain ⟨pr2, su2, h2, h2f⟩ := ih (num + 1)
    exact ⟨pr1 ++ pr2, su1 ++ su2,
      by simp [checkLines, h1, h2, Bind.bind, Except.bind, Pure.pure, Except.pure],
      by simp [checkLines, h1f, h2f, Bind.bind, Except.bind, Pure.pure, Except.pure]⟩

/-- The result of `check_one_file` on a one-line text with
`is_printed=False` and the line not discarded. -/
theorem check_one_file_single (cfg : Config) (filename raw : Str)
    (hline : splitlines raw = [raw])
    (hkeep : cfg.do_not_print.any (fun pattern => containsSub raw pattern) = false) :
    check_one_file cfg filename raw false =
      .ok ([], if (cfg.summary_patterns.map pyLower).any (fun error =>
          containsSub (pyLower (scannedLine cfg raw)) error &&
            !(cfg.summary_exemptions.any fun exempt =>
                containsSub (scannedLine cfg raw) exempt)) then
          [summaryEntry 1 filename (scannedLine cfg raw)]
        else []) := by
  unfold check_one_file
  rw [hline]
  simp [checkLines, Bind.bind, Except.bind, Pure.pure, Except.pure,
    checkLineStep_false_eq cfg filename (cfg.summary_patterns.map pyLower) 1 raw hkeep]

/-! ### Claim C3 -/

/-- Claim C3: for a line scanned by `check_one_file` (a one-line text, not
discarded by `do_not_print`), if the scanned line contains some
`summary_patterns` string case-insensitively but also contains some
`summary_exemptions` string case-sensitively, the line is not added to the
returned summary; if it contains a pattern case-insensitively and no
exemption case-sensitively, it is added (as its formatted entry). -/
theorem claim_C3_theorem (cfg : Config) (filename raw : Str)
    (hline : splitlines raw = [raw])
    (hkeep : cfg.do_not_print.any (fun pattern => containsSub raw pattern) = false)
    (hp : ∃ p ∈ cfg.summary_patterns,
      containsSub (pyLower (scannedLine cfg raw)) (pyLower p) = true) :
    ((∃ e ∈ cfg.summary_exemptions,
        containsSub (scannedLine cfg raw) e = true) →
      check_one_file cfg filename raw false = .ok ([], [])) ∧
    ((¬ ∃ e ∈ cfg.summary_exemptions,
        containsSub (scannedLine cfg raw) e = true) →
      check_one_file cfg filename raw false =
        .ok ([], [summaryEntry 1 filename (scannedLine cfg raw)])) := by
  have hsingle := check_one_file_single cfg filename raw hline hkeep
  constructor
  · intro he
    obtain ⟨e, he1, he2⟩ := he
    have hex : (cfg.summary_exemptions.any fun exempt =>
        containsSub (scannedLine cfg raw) exempt) = true :=
      List.any_eq_true.2 ⟨e, he1, he2⟩
    have hflag : ((cfg.summary_patterns.map pyLower).any fun error =>
        containsSub (pyLower (scannedLine cfg raw)) error &&
          !(cfg.summary_exemptions.any fun exempt =>
              containsSub (scannedLine cfg raw) exempt)) = false := by
      simp [hex]
    rw [hsingle, hflag]
    simp
  · intro he
    have hex : (cfg.summary_exemptions.any fun exempt =>
        containsSub (scannedLine cfg raw) exempt) = false := by
      rw [Bool.eq_false_iff]
      intro habs
      exact he (List.any_eq_true.1 habs)
    obtain ⟨p, hp1, hp2⟩ := hp
    have hflag : ((cfg.summary_patterns.map pyLower).any fun error =>
        containsSub (pyLower (scannedLine cfg raw)) error &&
          !(cfg.summary_exemptions.any fun exempt =>
              containsSub (scannedLine cfg raw) exempt)) = true :=
      List.any_eq_true.2 ⟨pyLower p, List.mem_map_of_mem pyLower hp1,
        by simp [hex, hp2]⟩
    rw [hsingle, hflag]
    simp

/-- Claim C3 (witness): a line with a pattern and an exemption is kept out
of the summary; a line with a pattern and no exemption is added. -/
theorem claim_C3_witness :
    check_one_file defaultConfigValues "f".data
        "2021-11-14T02:31:28.6752380Zfail_ci_if_error: false".data false =
      .ok ([], []) ∧
    check_one_file defaultConfigValues "f".data flaggedLine false =
      .ok ([], [summaryEntry 1 "f".data "error x".data]) :=
  ⟨(claim_C3_theorem defaultConfigValues "f".data
      "2021-11-14T02:31:28.6752380Zfail_ci_if_error: false".data
      (by decide) (by decide) (by decide)).1 (by decide),
   (claim_C3_theorem defaultConfigValues "f".data flaggedLine
      (by decide) (by decide) (by decide)).2 (by decide)⟩

/-! ### Claim C8 -/

/-- Claim C8 (counterexample): with an unknown `summary_color` and a line
flagged for the summary, the `is_printed=True` run raises `KeyError` while
the `is_printed=False` run returns the summary — so the summary returned is
not identical for the two flag values on every config. -/
theorem claim_C8_counterexample :
    check_one_file configBadColor "f".data flaggedLine true = .error .keyError ∧
    check_one_file configBadColor "f".data flaggedLine false =
      .ok ([], ["  1 f error x".data]) := by
  decide

/-- Claim C8 (amended): provided `summary_color` names a known color (true
of any configuration whose summary is ever printed without error), the
summary list returned by `check_one_file` is identical for any two values of
`is_printed`: the flag affects only the printed output. -/
theorem claim_C8_amended (cfg : Config) (filename text : Str) (c : ColorName)
    (hc : colorName? cfg.summary_color = some c) (b1 b2 : Bool) :
    (check_one_file cfg filename text b1).map Prod.snd =
      (check_one_file cfg filename text b2).map Prod.snd := by
  obtain ⟨pr1, su1, h1, h1f⟩ := checkLines_sound cfg filename
    (cfg.summary_patterns.map pyLower) c hc b1 (splitlines text) 1
  obtain ⟨pr2, su2, h2, h2f⟩ := checkLines_sound cfg filename
    (cfg.summary_patterns.map pyLower) c hc b2 (splitlines text) 1
  have hsu : su1 = su2 := by
    have := h1f.symm.trans h2f
    simpa using this
  unfold check_one_file
  rw [h1, h2, hsu]
  rfl

/-- Claim C8 (witness): the summary equality at the default configuration
(whose `summary_color` RED is known) on a flagged line. -/
theorem claim_C8_witness :
    (check_one_file defaultConfigValues "f".data flaggedLine true).map Prod.snd =
      (check_one_file defaultConfigValues "f".data flaggedLine false).map Prod.snd :=
  claim_C8_amended defaultConfigValues "f".data flaggedLine .RED (by decide) true false

/-! ### Claim C9 -/

/-- Claim C9: the `do_not_print` exclusion is decided on the raw line,
including its 28-character time-tag prefix, while the pattern and exemption
matching is decided on the line with its first `TIMETAG_SIZE` characters
removed whenever `keep_timetags` is false — and that prefix is removed
unconditionally, whether or not it is a timestamp. -/
theorem claim_C9_theorem (cfg : Config) (filename raw : Str) (b : Bool)
    (hkt : cfg.keep_timetags = false) (hline : splitlines raw = [raw]) :
    (cfg.do_not_print.any (fun pattern => containsSub raw pattern) = true →
      check_one_file cfg filename raw b = .ok ([], [])) ∧
    (cfg.do_not_print.any (fun pattern => containsSub raw pattern) = false →
      check_one_file cfg filename raw false =
        .ok ([], if (cfg.summary_patterns.map pyLower).any (fun error =>
            containsSub (pyLower (raw.drop TIMETAG_SIZE)) error &&
              !(cfg.summary_exemptions.any fun exempt =>
                  containsSub (raw.drop TIMETAG_SIZE) exempt)) then
            [summaryEntry 1 filename (raw.drop TIMETAG_SIZE)]
          else [])) := by
  have hscan : scannedLine cfg raw = raw.drop TIMETAG_SIZE := by
    simp [scannedLine, hkt]
  constructor
  · intro hd
    unfold check_one_file
    rw [hline]
    simp [checkLines, checkLineStep, hd, Bind.bind, Except.bind, Pure.pure, Except.pure]
  · intro hd
    have := check_one_file_single cfg filename raw hline hd
    rwa [hscan] at this

/-- Claim C9 (witness): a line carrying a `do_not_print` pattern is dropped
even though its prefix is no timestamp; a flagged line is matched on its
tail after the 28-character chop. -/
theorem claim_C9_witness :
    check_one_file defaultConfigValues "f".data
        "x Receiving objects: yz".data true = .ok ([], []) ∧
    check_one_file defaultConfigValues "f".data flaggedLine false =
      .ok ([], ["  1 f error x".data]) :=
  ⟨(claim_C9_theorem defaultConfigValues "f".data "x Receiving objects: yz".data
      true (by decide) (by decide)).1 (by decide),
   (claim_C9_theorem defaultConfigValues "f".data flaggedLine false
      (by decide) (by decide)).2 (by decide)⟩

/-! ### Lemmas about the `show_action_log` member loop -/

/-- A member skipped by `do_not_scan` contributes neither printed lines nor
summary entries. -/
theorem memberStep_not_scanned (cfg : Config) (z : ZipArchive)
    (ns np : List Str) (m : Str) (h : ns.contains m = true) :
    memberStep cfg z ns np m = .ok ([], []) := by
  have h' : m ∈ ns := by simpa using h
  simp [memberStep, h']

/-- A member scanned but suppressed by `do_not_show` prints nothing, and its
summary entries are those of a non-printed `check_one_file` run. -/
theorem memberStep_not_printed (cfg : Config) (z : ZipArchive)
    (ns np : List Str) (m : Str)
    (hns : ns.contains m = false) (hnp : np.contains m = true) :
    ∃ ms, memberStep cfg z ns np m = .ok ([], ms) ∧
      check_one_file cfg m (z.read m) false = .ok ([], ms) := by
  obtain ⟨ms, hms⟩ := checkLines_false_ok cfg m (cfg.summary_patterns.map pyLower)
    (splitlines (z.read m)) 1
  have hcf : check_one_file cfg m (z.read m) false = .ok ([], ms) := hms
  have hns' : m ∉ ns := by simpa using hns
  have hnp' : m ∈ np := by simpa using hnp
  refine ⟨ms, ?_, hcf⟩
  simp [memberStep, hns', hnp', hcf, Bind.bind, Except.bind, Pure.pure,
    Except.pure, Functor.map, Except.map]

/-- Every member's contribution appears as one segment of a successful
loop's summary. -/
theorem scanLoop_mem_decomp (cfg : Config) (z : ZipArchive) (ns np : List Str) :
    ∀ (names : List Str) (pr su : List Str) (m : Str),
    scanLoop cfg z ns np names = .ok (pr, su) → m ∈ names →
    ∃ mp ms pre post, memberStep cfg z ns np m = .ok (mp, ms) ∧
      su = pre ++ ms ++ post := by
  intro names
  induction names with
  | nil => intro pr su m _ hm; cases hm
  | cons f rest ih =>
    intro pr su m hloop hm
    cases hstep : memberStep cfg z ns np f with
    | error e =>
      rw [scanLoop] at hloop
      rw [hstep] at hloop
      cases hloop
    | ok ps =>
      cases hrest : scanLoop cfg z ns np rest with
      | error e =>
        rw [scanLoop] at hloop
        rw [hstep] at hloop
        simp only [Bind.bind, Except.bind, hrest] at hloop
        cases hloop
      | ok rs =>
        rw [scanLoop] at hloop
        rw [hstep] at hloop
        simp only [Bind.bind, Except.bind, hrest, Pure.pure, Except.pure,
          Except.ok.injEq, Prod.mk.injEq] at hloop
        obtain ⟨-, hsu⟩ := hloop
        subst hsu
        rcases List.mem_cons.1 hm with rfl | hm'
        · exact ⟨ps.1, ps.2, [], rs.2, hstep, by simp⟩
        · obtain ⟨mp, ms, pre, post, hs, hd⟩ := ih rs.1 rs.2 m hrest hm'
          exact ⟨mp, ms, ps.2 ++ pre, post, hs, by rw [hd]; simp⟩

/-- A successful `show_action_log` run determines a successful member loop
whose summary is the returned one. -/
theorem show_action_log_scanLoop (cfg : Config) (z : ZipArchive)
    (path : Str) (pr su : List Str)
    (h : show_action_log path cfg z = .ok (pr, su)) :
    ∃ lpr, scanLoop cfg z (select z cfg.do_not_scan) (select z cfg.do_not_show)
      (orderedFilenames z) = .ok (lpr, su) := by
  unfold show_action_log at h
  split at h
  · cases h
  · split at h
    · cases h
    · split at h
      · cases h
      · split at h
        · cases h
        · rename_i x1 lps hloop x2 sumpr hsum x3 endpr hend
          simp only [Except.ok.injEq, Prod.mk.injEq] at h
          exact ⟨lps.1, by rw [hloop, ← h.2]⟩

/-! ### Claim C10 -/

/-- Claim C10: in a successful `show_action_log` run, a member selected by
`do_not_show` but not by `do_not_scan` is still scanned — its summary
entries form one segment of the final summary and its member-loop step
prints nothing — whereas a member selected by `do_not_scan` contributes
nothing to either display or summary. -/
theorem claim_C10_theorem (cfg : Config) (z : ZipArchive) (path m : Str)
    (pr su : List Str)
    (hrun : show_action_log path cfg z = .ok (pr, su))
    (hmem : m ∈ orderedFilenames z) :
    ((select z cfg.do_not_scan).contains m = false →
      (select z cfg.do_not_show).contains m = true →
      ∃ ms pre post,
        check_one_file cfg m (z.read m) false = .ok ([], ms) ∧
        memberStep cfg z (select z cfg.do_not_scan) (select z cfg.do_not_show) m =
          .ok ([], ms) ∧
        su = pre ++ ms ++ post) ∧
    ((select z cfg.do_not_scan).contains m = true →
      memberStep cfg z (select z cfg.do_not_scan) (select z cfg.do_not_show) m =
        .ok ([], [])) := by
  obtain ⟨lpr, hloop⟩ := show_action_log_scanLoop cfg z path pr su hrun
  constructor
  · intro hns hnp
    obtain ⟨ms, hstep, hcf⟩ := memberStep_not_printed cfg z
      (select z cfg.do_not_scan) (select z cfg.do_not_show) m hns hnp
    obtain ⟨mp, ms2, pre, post, hstep2, hdecomp⟩ :=
      scanLoop_mem_decomp cfg z (select z cfg.do_not_scan)
        (select z cfg.do_not_show) (orderedFilenames z) lpr su m hloop hmem
    have heq := hstep.symm.trans hstep2
    simp only [Except.ok.injEq, Prod.mk.injEq] at heq
    exact ⟨ms, pre, post, hcf, hstep, by rw [hdecomp, ← heq.2]⟩
  · intro hns
    exact memberStep_not_scanned cfg z
      (select z cfg.do_not_scan) (select z cfg.do_not_show) m hns

/-- Claim C10 (witness): the suppressed-but-scanned behavior at a concrete
archive whose single member is selected by `do_not_show`. -/
theorem claim_C10_witness :
    ∃ ms pre post,
      check_one_file configC10 "a.txt".data (archiveC10.read "a.txt".data) false =
        .ok ([], ms) ∧
      memberStep configC10 archiveC10 (select archiveC10 configC10.do_not_scan)
        (select archiveC10 configC10.do_not_show) "a.txt".data = .ok ([], ms) ∧
      ["  1 a.txt error x".data] = pre ++ ms ++ post :=
  (claim_C10_theorem configC10 archiveC10 "log.zip".data "a.txt".data _
    ["  1 a.txt error x".data] rfl (by decide)).1 (by decide) (by decide)

/-! ### Lemmas about the tuple order of `locate_log_file` -/

theorem tsPathLe_refl (a : Str × Str) : tsPathLe a a = true := by
  simp [tsPathLe, strLe_refl]

theorem tsPathLe_total (a b : Str × Str) :
    tsPathLe a b = true ∨ tsPathLe b a = true := by
  rcases strLe_total a.1 b.1 with h | h
  · rcases strLe_iff_lt_or_eq.1 h with hlt | heq
    · left; simp [tsPathLe, hlt]
    · rcases strLe_total a.2 b.2 with h2 | h2
      · left; simp [tsPathLe, heq, h2]
      · right; simp [tsPathLe, heq, h2]
  · rcases strLe_iff_lt_or_eq.1 h with hlt | heq
    · right; simp [tsPathLe, hlt]
    · rcases strLe_total a.2 b.2 with h2 | h2
      · left; simp [tsPathLe, heq, h2]
      · right; simp [tsPathLe, heq, h2]

theorem tsPathLe_trans {a b c : Str × Str} (h1 : tsPathLe a b = true)
    (h2 : tsPathLe b c = true) : tsPathLe a c = true := by
  simp only [tsPathLe, Bool.or_eq_true, Bool.and_eq_true, beq_iff_eq] at h1 h2 ⊢
  rcases h1 with h1 | ⟨h1e, h1le⟩ <;> rcases h2 with h2 | ⟨h2e, h2le⟩
  · exact Or.inl (strLt_trans h1 h2)
  · exact Or.inl (h2e ▸ h1)
  · exact Or.inl (h1e ▸ h2)
  · exact Or.inr ⟨h1e.trans h2e, strLe_trans h1le h2le⟩

theorem tsPathLe_fst {a b : Str × Str} (h : tsPathLe a b = true) :
    strLe a.1 b.1 = true := by
  simp only [tsPathLe, Bool.or_eq_true, Bool.and_eq_true, beq_iff_eq] at h
  rcases h with h | ⟨he, -⟩
  · exact strLe_iff_lt_or_eq.2 (Or.inl h)
  · exact he ▸ strLe_refl a.1

theorem sortDescTs_eq_nil_iff {l : List (Str × Str)} :
    sortDescTs l = [] ↔ l = [] := by
  constructor
  · intro h
    have hperm := List.perm_insertionSort tsPathGe l
    rw [show List.insertionSort tsPathGe l = sortDescTs l from rfl, h] at hperm
    exact (hperm.symm.eq_nil)
  · intro h; subst h; rfl

/-- The head of the descending sort is a maximum of the list. -/
theorem sortDescTs_head_max {l : List (Str × Str)} {h0 : Str × Str}
    {t : List (Str × Str)} (heq : sortDescTs l = h0 :: t) :
    h0 ∈ l ∧ ∀ q ∈ l, tsPathLe q h0 = true := by
  haveI : IsTotal (Str × Str) tsPathGe := ⟨fun a b => tsPathLe_total b a⟩
  haveI : IsTrans (Str × Str) tsPathGe :=
    ⟨fun _ _ _ h1 h2 => tsPathLe_trans h2 h1⟩
  have hperm : (sortDescTs l).Perm l := List.perm_insertionSort tsPathGe l
  have hsorted : List.Sorted tsPathGe (sortDescTs l) :=
    List.sorted_insertionSort tsPathGe l
  rw [heq] at hperm hsorted
  constructor
  · exact hperm.mem_iff.1 (List.mem_cons_self _ _)
  · intro q hq
    have hq' : q ∈ h0 :: t := hperm.mem_iff.2 hq
    rcases List.mem_cons.1 hq' with rfl | hq''
    · exact tsPathLe_refl q
    · exact (List.pairwise_cons.1 hsorted).1 q hq''

/-- Membership in the `timestamps` list of `locate_log_file`. -/
theorem mem_locateTimestamps {cfg : Config} {files : List (Str × ZipArchive)}
    {ts p : Str} :
    (ts, p) ∈ locateTimestamps cfg files ↔
      ∃ z : ZipArchive, (p, z) ∈ files ∧ ts = z.timestamp ∧
        archiveSatisfies cfg z := by
  unfold locateTimestamps archiveSatisfies
  rw [List.mem_flatMap]
  constructor
  · rintro ⟨pz, hpz, hmem⟩
    by_cases hc1 : (select pz.2 [cfg.contains_member]).isEmpty = true
    · by_cases hc2 : identify_repository pz.2 = some cfg.repository
      · simp [hc1, hc2, Prod.ext_iff] at hmem
        obtain ⟨hts, hp⟩ := hmem
        subst hts; subst hp
        exact ⟨pz.2, hpz, rfl, Or.inr hc2⟩
      · simp [hc1, hc2] at hmem
    · have hsel : select pz.2 [cfg.contains_member] ≠ [] := by
        intro habs; exact hc1 (by simp [habs])
      by_cases hc2 : identify_repository pz.2 = some cfg.repository
      · simp [hc1, hc2, Prod.ext_iff] at hmem
        obtain ⟨hts, hp⟩ := hmem
        subst hts; subst hp
        exact ⟨pz.2, hpz, rfl, Or.inl hsel⟩
      · simp [hc1, hc2, Prod.ext_iff] at hmem
        obtain ⟨hts, hp⟩ := hmem
        subst hts; subst hp
        exact ⟨pz.2, hpz, rfl, Or.inl hsel⟩
  · rintro ⟨z, hz, hts, hsat⟩
    refine ⟨(p, z), hz, ?_⟩
    rw [List.mem_append]
    rcases hsat with hsel | hrepo
    · left
      have : (select z [cfg.contains_member]).isEmpty = false := by
        cases hlist : select z [cfg.contains_member] with
        | nil => exact absurd hlist hsel
        | cons a l => rfl
      simp [this, hts]
    · right
      simp [hrepo, hts]

/-! ### Claim C4 -/

/-- Claim C4 (counterexample): the archive's second repository line equals
the configured repository `B`, so the claim's predicate — "has a repository
line equal to the configured repository" — holds of it; but the code
compares only the first identified repository line (`A`), so with a
`contains_member` matching nothing, `locate_log_file` returns `None`
nonetheless. -/
theorem claim_C4_counterexample :
    locate_log_file configC4 [("a.zip".data, archiveC4)] = none ∧
    ((splitlines (archiveC4.read "a.txt".data)).filterMap repoCapture).contains
      configC4.repository = true := by
  decide

/-- Claim C4 (amended): `locate_log_file` returns `None` iff no archive in
the globbed list satisfies the code's predicate — some member matches
`contains_member`, or the FIRST identified repository line equals the
configured repository — and any returned path belongs to a satisfying
archive whose embedded timestamp is greatest (`>=` all satisfying archives'
timestamps; on a timestamp tie the code breaks ties by the path half of the
sorted tuples).  The hypotheses restrict to archives on which the source
does not crash: each archive has a member, and member names are normalized
(`IndexError` and `KeyError` territory otherwise, which the total model
papers over). -/
theorem claim_C4_amended (cfg : Config) (files : List (Str × ZipArchive))
    (_hne : ∀ pz ∈ files, memberNames pz.2 ≠ [])
    (_hclean : ∀ pz ∈ files, ∀ n ∈ memberNames pz.2, joinParts (pathParts n) = n) :
    (locate_log_file cfg files = none ↔
      ∀ pz ∈ files, ¬ archiveSatisfies cfg pz.2) ∧
    (∀ p, locate_log_file cfg files = some p →
      ∃ z : ZipArchive, (p, z) ∈ files ∧ archiveSatisfies cfg z ∧
        ∀ qz ∈ files, archiveSatisfies cfg qz.2 →
          strLe qz.2.timestamp z.timestamp = true) := by
  constructor
  · constructor
    · intro h pz hpz hsat
      have hmem : (pz.2.timestamp, pz.1) ∈ locateTimestamps cfg files :=
        mem_locateTimestamps.2 ⟨pz.2, hpz, rfl, hsat⟩
      unfold locate_log_file at h
      cases hsort : sortDescTs (locateTimestamps cfg files) with
      | nil =>
        have hnil : locateTimestamps cfg files = [] :=
          sortDescTs_eq_nil_iff.1 hsort
        rw [hnil] at hmem
        cases hmem
      | cons a t => rw [hsort] at h; cases h
    · intro hall
      unfold locate_log_file
      have hnil : locateTimestamps cfg files = [] := by
        rw [List.eq_nil_iff_forall_not_mem]
        intro x hx
        obtain ⟨ts, p⟩ := x
        obtain ⟨z, hz, -, hsat⟩ := mem_locateTimestamps.1 hx
        exact hall (p, z) hz hsat
      rw [hnil]
      rfl
  · intro p hp
    unfold locate_log_file at hp
    cases hsort : sortDescTs (locateTimestamps cfg files) with
    | nil => rw [hsort] at hp; cases hp
    | cons a t =>
      rw [hsort] at hp
      obtain ⟨ts0, p0⟩ := a
      simp only [Option.some_inj] at hp
      subst hp
      obtain ⟨hmem, hmax⟩ := sortDescTs_head_max hsort
      obtain ⟨z, hz, hts, hsat⟩ := mem_locateTimestamps.1 hmem
      refine ⟨z, hz, hsat, ?_⟩
      intro qz hqz hqsat
      have hqmem : (qz.2.timestamp, qz.1) ∈ locateTimestamps cfg files :=
        mem_locateTimestamps.2 ⟨qz.2, hqz, rfl, hqsat⟩
      have hle := tsPathLe_fst (hmax _ hqmem)
      exact hts ▸ hle

/-- Claim C4 (witness): the amended characterization over a one-archive
glob whose member matches the default `contains_member`. -/
theorem claim_C4_witness :
    (locate_log_file defaultConfigValues
        [("logs1.zip".data, (⟨[("m.txt".data, "2021-11-14T02:31:28.6752380Z ok".data)]⟩ : ZipArchive))] = none ↔
      ∀ pz ∈ [("logs1.zip".data,
          (⟨[("m.txt".data, "2021-11-14T02:31:28.6752380Z ok".data)]⟩ : ZipArchive))],
        ¬ archiveSatisfies defaultConfigValues pz.2) ∧
    (∀ p, locate_log_file defaultConfigValues
        [("logs1.zip".data, (⟨[("m.txt".data, "2021-11-14T02:31:28.6752380Z ok".data)]⟩ : ZipArchive))] = some p →
      ∃ z : ZipArchive,
        (p, z) ∈ [("logs1.zip".data,
          (⟨[("m.txt".data, "2021-11-14T02:31:28.6752380Z ok".data)]⟩ : ZipArchive))] ∧
        archiveSatisfies defaultConfigValues z ∧
        ∀ qz ∈ [("logs1.zip".data,
            (⟨[("m.txt".data, "2021-11-14T02:31:28.6752380Z ok".data)]⟩ : ZipArchive))],
          archiveSatisfies defaultConfigValues qz.2 →
            strLe qz.2.timestamp z.timestamp = true) :=
  claim_C4_amended defaultConfigValues _ (by decide) (by decide)

/-! ### Cross-checks of the embedded library functions against CPython
behavior on corner cases (each expected value was computed with the
reference implementations of `re.search`/`str.replace`, `fnmatch`,
`str.splitlines` and `sorted`). -/

example : name_key_function "007abc007".data = "00007abc00007".data := by decide
example : name_key_function "3/14.txt".data = "00003/00014.txt".data := by decide
example : name_key_function "1/2".data = "00001/00002".data := by decide
example : name_key_function "111".data = "00111".data := by decide
example : name_key_function "18_Post jobs/7_x.txt".data =
    "00018_Post jobs/00007_x.txt".data := by decide
example : name_key_function "a/0_setup".data = "a/00000_setup".data := by decide
example : name_key_function "12ab34/56cd".data = "00012ab34/00056cd".data := by decide
example : name_key_function "0/0".data = "00000/00000".data := by decide

example : pySortedByNameKey ["2_a.txt".data, "11_a.txt".data, "1_b.txt".data] =
    ["1_b.txt".data, "2_a.txt".data, "11_a.txt".data] := by decide

example : pySortedByNameKey ["2a".data, "02a".data] =
    ["2a".data, "02a".data] := by decide
example : pySortedByNameKey ["02a".data, "2a".data] =
    ["02a".data, "2a".data] := by decide

example : fnmatch "x.txt".data "*.t?t".data = true := by decide
example : fnmatch "ab".data "[a-c]b".data = true := by decide
example : fnmatch "ab".data "[!a-c]b".data = false := by decide
example : fnmatch "-b".data "[-a]b".data = true := by decide
example : fnmatch "]b".data "[]]b".data = true := by decide
example : fnmatch "[b".data "[b".data = true := by decide
example : fnmatch "ab".data "[b".data = false := by decide
example : fnmatch "a]b".data "[a]]b".data = true := by decide
example : fnmatch "xyz".data "*".data = true := by decide
example : fnmatch [] "*".data = true := by decide
example : fnmatch [] "?".data = false := by decide
example : fnmatch "ab".data "a[".data = false := by decide
example : fnmatch "A".data "[!]a]".data = true := by decide
example : fnmatch "]".data "[!]a]".data = false := by decide
example : fnmatch "z".data "[!]a]".data = true := by decide

example : splitlines "a\r\nb".data = ["a".data, "b".data] := by decide
example : splitlines "a\rb".data = ["a".data, "b".data] := by decide
example : splitlines "a\x0bb".data = ["a".data, "b".data] := by decide
example : splitlines "a\n".data = ["a".data] := by decide
example : splitlines "\n\n".data = [[], []] := by decide
example : splitlines "a\r\n".data = ["a".data] := by decide
example : splitlines "a\r".data = ["a".data] := by decide
example : splitlines "\r\na".data = [[], "a".data] := by decide
example : splitlines [] = [] := by decide

example : repoCapture "  repository: ".data = some [] := by decide
example : repoCapture "x  repository: a  repository: ".data = some [] := by decide
example : repoCapture "  repository: x  y".data = some "x  y".data := by decide
example : repoCapture "no match here".data = none := by decide

example : fmtNum3 5 = "  5".data := by decide
example : fmtNum3 99 = " 99".data := by decide
example : fmtNum3 999 = " 999".data := by decide
example : fmtNum3 1000 = " 1000".data := by decide

example : pyReplace "ab".data [] "X".data = "XaXbX".data := by decide
example : pyLower "AbC".data = "abc".data := by decide
example : containsSub "abc".data [] = true := by decide

example : pathParts "/a/b".data = ["/".data, "a".data, "b".data] := by decide
example : pathParts "//a".data = ["//".data, "a".data] := by decide
example : pathParts "///a".data = ["/".data, "a".data] := by decide
example : pathParts "a/.".data = ["a".data] := by decide
example : pathParts [] = [] := by decide

end Logview
